import Mathlib

/-!
Shallow embedding of the firestore-service wrapper
(`FirestoreDataConverter.ts`, `RequestLimiter.ts`, `firestoreService.ts`)
together with theorems settling the specification claims.

Conventions of the embedding:
* JavaScript runtime values are modelled by `JSValue`; `undefined` is a
  first-class value (`vUndefined`), and the converter's "absent" result is
  `Option.none`.
* JavaScript objects are association lists in key-insertion order, the
  order `Object.keys` iterates.
* Millisecond times (`Date.now()`, `Date.getTime()`) are `Int`; the
  Firestore `Timestamp` is a pair of seconds and nanoseconds, built with
  `Math.floor` semantics (`Int.ediv`/`Int.emod` for the positive divisor
  1000).
* The mutable static state of `RequestLimiter` is threaded explicitly as
  `LimiterState`; throwing is modelled by a `Bool` / `Except` result, and
  the state returned alongside an error is the state the statics hold at
  the moment of the throw.
* Calls into the wrapped SDK (`getDoc`, `addDoc`, ...) are opaque: a
  service operation returns the limiter state it leaves behind plus
  `Except FsError` of what it would hand to the SDK.
-/

namespace FirestoreSpec

/-- JavaScript values as far as the converter distinguishes them.
`vFunc` and `vSym` stand for function and symbol values (their payload is
an arbitrary tag); `vDate` is a native `Date` holding integer epoch
milliseconds; `vTimestamp` is a Firestore `Timestamp` (seconds,
nanoseconds). -/
inductive JSValue where
  | vNull : JSValue
  | vUndefined : JSValue
  | vBool : Bool → JSValue
  | vNum : Int → JSValue
  | vStr : String → JSValue
  | vDate : Int → JSValue
  | vTimestamp : Int → Int → JSValue
  | vArr : List JSValue → JSValue
  | vObj : List (String × JSValue) → JSValue
  | vFunc : Nat → JSValue
  | vSym : Nat → JSValue

/-- JavaScript truthiness for the values of `JSValue`. Objects, arrays,
dates, timestamps, functions and symbols are always truthy. -/
def truthy : JSValue → Bool
  | .vNull => false
  | .vUndefined => false
  | .vBool b => b
  | .vNum n => n != 0
  | .vStr s => s != ""
  | _ => true

/-- `Timestamp.fromDate` / `Timestamp.fromMillis`: seconds is
`Math.floor(ms / 1000)` and nanoseconds is `(ms - seconds * 1000) * 1e6`. -/
def timestampFromDate (ms : Int) : JSValue :=
  .vTimestamp (Int.ediv ms 1000) ((ms - Int.ediv ms 1000 * 1000) * 1000000)

/-- `Timestamp.toDate`: epoch milliseconds `seconds * 1000 + nanos / 1e6`.
Exact whenever nanoseconds is a multiple of 1e6, which holds for every
timestamp `timestampFromDate` produces. -/
def timestampToDate (seconds nanos : Int) : JSValue :=
  .vDate (seconds * 1000 + Int.ediv nanos 1000000)

mutual

/-- `transformDates` from `toFirestore`: `null`/`undefined` become absent
(`none`), a `Date` becomes a `Timestamp`, a `Timestamp` passes through,
arrays and objects recurse dropping absent members, and every other value
(booleans, numbers, strings, functions, symbols) is returned unchanged. -/
def transformDates : JSValue → Option JSValue
  | .vNull => none
  | .vUndefined => none
  | .vDate ms => some (timestampFromDate ms)
  | .vTimestamp s n => some (.vTimestamp s n)
  | .vArr xs => some (.vArr (transformDatesList xs))
  | .vObj fs => some (.vObj (transformDatesObj fs))
  | .vBool b => some (.vBool b)
  | .vNum n => some (.vNum n)
  | .vStr s => some (.vStr s)
  | .vFunc i => some (.vFunc i)
  | .vSym i => some (.vSym i)

/-- `obj.map(transformDates).filter(val => val !== undefined)` on arrays. -/
def transformDatesList : List JSValue → List JSValue
  | [] => []
  | x :: xs =>
    match transformDates x with
    | none => transformDatesList xs
    | some y => y :: transformDatesList xs

/-- The `Object.keys(obj).reduce` loop of `transformDates`: keys whose
transformed value is absent are dropped, the rest keep their order. -/
def transformDatesObj : List (String × JSValue) → List (String × JSValue)
  | [] => []
  | (k, v) :: fs =>
    match transformDates v with
    | none => transformDatesObj fs
    | some w => (k, w) :: transformDatesObj fs

end

/-- `toFirestore`: `transformDates(data) || {}` — an absent or falsy
transform result is replaced by the empty object. -/
def toFirestore (data : JSValue) : JSValue :=
  match transformDates data with
  | none => .vObj []
  | some v => if truthy v then v else .vObj []

mutual

/-- `transformTimestamps` from `fromFirestore`: `null`/`undefined` pass
through, a `Timestamp` becomes a `Date`, arrays and objects recurse.
A native `Date` in stored data falls into the generic object branch and
collapses to `{}` (it has no own enumerable keys); functions, symbols and
scalars are returned unchanged. -/
def transformTimestamps : JSValue → JSValue
  | .vNull => .vNull
  | .vUndefined => .vUndefined
  | .vTimestamp s n => timestampToDate s n
  | .vArr xs => .vArr (transformTimestampsList xs)
  | .vObj fs => .vObj (transformTimestampsObj fs)
  | .vDate _ => .vObj []
  | .vBool b => .vBool b
  | .vNum n => .vNum n
  | .vStr s => .vStr s
  | .vFunc i => .vFunc i
  | .vSym i => .vSym i

def transformTimestampsList : List JSValue → List JSValue
  | [] => []
  | x :: xs => transformTimestamps x :: transformTimestampsList xs

def transformTimestampsObj : List (String × JSValue) → List (String × JSValue)
  | [] => []
  | (k, v) :: fs => (k, transformTimestamps v) :: transformTimestampsObj fs

end

/-- Object spread update `{ ...fs, k: v }`: an existing key keeps its
position but takes the new value, a new key is appended at the end. -/
def setField (fs : List (String × JSValue)) (k : String) (v : JSValue) :
    List (String × JSValue) :=
  if fs.any (fun p => p.1 == k) then
    fs.map (fun p => if p.1 == k then (k, v) else p)
  else fs ++ [(k, v)]

/-- First-match association-list lookup. -/
def lookupField : List (String × JSValue) → String → Option JSValue
  | [], _ => none
  | (k, v) :: fs, key => if k == key then some v else lookupField fs key

/-- Field lookup on an object value. -/
def objLookup (v : JSValue) (k : String) : Option JSValue :=
  match v with
  | .vObj fs => lookupField fs k
  | _ => none

/-- `fromFirestore`: `{ ...transformTimestamps(snapshot.data()), id:
snapshot.id }`. Snapshot data is always an object; for any non-object the
spread contributes no fields. -/
def fromFirestore (data : JSValue) (docId : String) : JSValue :=
  match transformTimestamps data with
  | .vObj fs => .vObj (setField fs "id" (.vStr docId))
  | _ => .vObj (setField [] "id" (.vStr docId))

/-- Errors thrown by the path validation helpers of `FirestoreService`,
one constructor per distinct `throw new Error(...)` site. -/
inductive PathError where
  | emptyPath
  | leadingOrTrailingSlash
  | collectionParity
  | documentParity
  | documentTooFewSegments
deriving DecidableEq

/-- JavaScript `String.prototype.split` with a one-character separator,
over the character list of the string: `"".split(sep)` is `[""]`, and
adjacent separators produce empty segments. -/
def splitOnChar (sep : Char) : List Char → List (List Char)
  | [] => [[]]
  | c :: cs =>
    match splitOnChar sep cs with
    | [] => [[c]]
    | h :: t => if c = sep then [] :: h :: t else (c :: h) :: t

/-- JavaScript `String.prototype.startsWith`. -/
def jsStartsWith (s pre : String) : Bool :=
  pre.data.isPrefixOf s.data

/-- JavaScript `String.prototype.endsWith`. -/
def jsEndsWith (s suf : String) : Bool :=
  suf.data.isSuffixOf s.data

/-- The slash-split segments of a path, as `path.split("/")` computes
them. -/
def pathSegments (path : String) : List (List Char) :=
  splitOnChar '/' path.data

/-- `validatePathBasic`: rejects the empty string (`!path`), then a path
that starts or ends with the separator. -/
def validatePathBasic (path : String) : Except PathError Unit :=
  if path = "" then .error .emptyPath
  else if jsStartsWith path "/" || jsEndsWith path "/" then
    .error .leadingOrTrailingSlash
  else .ok ()

/-- `validateCollectionPathSegments`: basic shape first, then the
slash-split segment count must be odd. -/
def validateCollectionPathSegments (path : String) : Except PathError Unit :=
  match validatePathBasic path with
  | .error e => .error e
  | .ok _ =>
    if (pathSegments path).length % 2 != 1 then .error .collectionParity
    else .ok ()

/-- `validateDocumentPathSegments`: basic shape first, then the
slash-split segment count must be even, then at least two. -/
def validateDocumentPathSegments (path : String) : Except PathError Unit :=
  match validatePathBasic path with
  | .error e => .error e
  | .ok _ =>
    if (pathSegments path).length % 2 != 0 then .error .documentParity
    else if (pathSegments path).length < 2 then .error .documentTooFewSegments
    else .ok ()

/-- Ceiling constants of `RequestLimiter`. -/
def maxRequestsPerMinute : Nat := 500

def maxDocumentRequestsPerMinute : Nat := 30

def maxSubscriptionRequestsPerMinute : Nat := 30

def maxCollectionFetchRequestsPerMinute : Nat := 20

/-- `RequestLimiter.logGeneralRequest`: push `now`, replace the stored
array by the entries younger than 60s, and throw when the length of that
pruned array exceeds the ceiling. Returns the stored array and whether
the call throws. -/
def logGeneralRequest (requestTimestamps : List Int) (now : Int) :
    List Int × Bool :=
  let pruned := (requestTimestamps ++ [now]).filter (fun t => now - t < 60000)
  (pruned, decide (pruned.length > maxRequestsPerMinute))

/-- `RequestLimiter.logSpecificRequest`: push `now` onto the path's
array, store the pruned copy in the map, but check the ceiling against
the UNpruned pushed array (`timestamps`), not against the pruned copy —
the filter result only goes into the map. Returns the new map and
whether the call throws. -/
def logSpecificRequest (log : String → List Int) (path : String)
    (maxRequests : Nat) (now : Int) : (String → List Int) × Bool :=
  let timestamps := log path ++ [now]
  (fun p => if p = path then timestamps.filter (fun t => now - t < 60000) else log p,
   decide (timestamps.length > maxRequests))

/-- `RequestLimiter.logDocumentRequest`. -/
def logDocumentRequest (log : String → List Int) (docPath : String) (now : Int) :
    (String → List Int) × Bool :=
  logSpecificRequest log docPath maxDocumentRequestsPerMinute now

/-- `RequestLimiter.logCollectionFetchRequest`. -/
def logCollectionFetchRequest (log : String → List Int) (collectionPath : String)
    (now : Int) : (String → List Int) × Bool :=
  logSpecificRequest log collectionPath maxCollectionFetchRequestsPerMinute now

/-- `RequestLimiter.logSubscriptionRequest`. -/
def logSubscriptionRequest (log : String → List Int) (subPath : String)
    (now : Int) : (String → List Int) × Bool :=
  logSpecificRequest log subPath maxSubscriptionRequestsPerMinute now

/-- The static mutable state of `RequestLimiter`: the general timestamp
array and the three per-path maps (modelled as total functions defaulting
to the empty array, matching `log.get(path)` after the `has` guard). -/
structure LimiterState where
  requestTimestamps : List Int
  documentRequestLog : String → List Int
  collectionFetchRequestLog : String → List Int
  subscriptionRequestLog : String → List Int

/-- The state the module initialises its statics to. -/
def initialLimiterState : LimiterState :=
  ⟨[], fun _ => [], fun _ => [], fun _ => []⟩

/-- Errors a service operation can surface before reaching the SDK. -/
inductive FsError where
  | path : PathError → FsError
  | rateLimit : FsError
deriving DecidableEq

/-- `FirestoreService.getDocument`: records the document-read request
(for the raw path string) FIRST, then validates the path inside
`docRef`. On a rate-limit throw the already-updated map survives, since
`RequestLimiter`'s state is static. -/
def getDocument (st : LimiterState) (now : Int) (docPath : String) :
    LimiterState × Except FsError Unit :=
  let r := logDocumentRequest st.documentRequestLog docPath now
  let st2 := { st with documentRequestLog := r.1 }
  if r.2 then (st2, .error .rateLimit)
  else
    match validateDocumentPathSegments docPath with
    | .error e => (st2, .error (.path e))
    | .ok _ => (st2, .ok ())

/-- `FirestoreService.addDocument`: validates the collection path first,
then records a general request, then calls the SDK. -/
def addDocument (st : LimiterState) (now : Int) (collectionPath : String) :
    LimiterState × Except FsError Unit :=
  match validateCollectionPathSegments collectionPath with
  | .error e => (st, .error (.path e))
  | .ok _ =>
    let r := logGeneralRequest st.requestTimestamps now
    let st2 := { st with requestTimestamps := r.1 }
    if r.2 then (st2, .error .rateLimit) else (st2, .ok ())

/-- `FirestoreService.updateDocument`: document-path validation first,
then a general request record, then the SDK call. -/
def updateDocument (st : LimiterState) (now : Int) (docPath : String) :
    LimiterState × Except FsError Unit :=
  match validateDocumentPathSegments docPath with
  | .error e => (st, .error (.path e))
  | .ok _ =>
    let r := logGeneralRequest st.requestTimestamps now
    let st2 := { st with requestTimestamps := r.1 }
    if r.2 then (st2, .error .rateLimit) else (st2, .ok ())

/-- `FirestoreService.setDocument`: same discipline as `updateDocument`
(the second validation inside `docRef` re-checks a path that already
passed and cannot fail). -/
def setDocument (st : LimiterState) (now : Int) (docPath : String) :
    LimiterState × Except FsError Unit :=
  match validateDocumentPathSegments docPath with
  | .error e => (st, .error (.path e))
  | .ok _ =>
    let r := logGeneralRequest st.requestTimestamps now
    let st2 := { st with requestTimestamps := r.1 }
    if r.2 then (st2, .error .rateLimit) else (st2, .ok ())

/-- `FirestoreService.deleteDocument`: same discipline as
`updateDocument`. -/
def deleteDocument (st : LimiterState) (now : Int) (docPath : String) :
    LimiterState × Except FsError Unit :=
  match validateDocumentPathSegments docPath with
  | .error e => (st, .error (.path e))
  | .ok _ =>
    let r := logGeneralRequest st.requestTimestamps now
    let st2 := { st with requestTimestamps := r.1 }
    if r.2 then (st2, .error .rateLimit) else (st2, .ok ())

/-- The `FilterOperator` union of `firestoreService.ts`. -/
inductive FilterOp where
  | eq | ne | lt | le | gt | ge
  | arrayContains | opIn | arrayContainsAny | notIn
deriving DecidableEq

/-- One entry of `QueryOptions.where`. -/
structure WhereClause where
  field : String
  op : FilterOp
  value : JSValue

/-- The `"asc" | "desc"` union. -/
inductive OrderDirection where
  | asc | desc
deriving DecidableEq

/-- One entry of `QueryOptions.orderBy`; `direction` is optional. -/
structure OrderByClause where
  field : String
  direction : Option OrderDirection

/-- `QueryOptions`. `where`/`orderBy` are either absent or an array;
`limit`, `startAfter` and `endBefore` keep their raw JavaScript value
because the source tests them for truthiness, not for presence. -/
structure QueryOptions where
  whereClauses : Option (List WhereClause)
  orderByClauses : Option (List OrderByClause)
  lim : JSValue
  startAfterValue : JSValue
  endBeforeValue : JSValue

/-- The Firestore `QueryConstraint` objects `queryCollection` builds. -/
inductive QueryConstraint where
  | whereC : String → FilterOp → JSValue → QueryConstraint
  | orderByC : String → Option OrderDirection → QueryConstraint
  | startAfterC : JSValue → QueryConstraint
  | endBeforeC : JSValue → QueryConstraint
  | limitC : JSValue → QueryConstraint

/-- Constraints contributed by `options.where`. -/
def whereConstraints (o : QueryOptions) : List QueryConstraint :=
  match o.whereClauses with
  | none => []
  | some ws => ws.map (fun w => .whereC w.field w.op w.value)

/-- Constraints contributed by `options.orderBy`. -/
def orderByConstraints (o : QueryOptions) : List QueryConstraint :=
  match o.orderByClauses with
  | none => []
  | some os => os.map (fun c => .orderByC c.field c.direction)

/-- The full constraint list `queryCollection` assembles: where clauses,
order-by clauses, then `startAfter`, `endBefore` and `limit`, each of the
last three added only when its option value is truthy. -/
def buildConstraints (o : QueryOptions) : List QueryConstraint :=
  whereConstraints o ++ orderByConstraints o
    ++ (if truthy o.startAfterValue then [.startAfterC o.startAfterValue] else [])
    ++ (if truthy o.endBeforeValue then [.endBeforeC o.endBeforeValue] else [])
    ++ (if truthy o.lim then [.limitC o.lim] else [])

/-- `FirestoreService.queryCollection`: collection-path validation, a
general request record, then the constraint list handed to the SDK's
`query`. -/
def queryCollection (st : LimiterState) (now : Int) (collectionPath : String)
    (o : QueryOptions) : LimiterState × Except FsError (List QueryConstraint) :=
  match validateCollectionPathSegments collectionPath with
  | .error e => (st, .error (.path e))
  | .ok _ =>
    let r := logGeneralRequest st.requestTimestamps now
    let st2 := { st with requestTimestamps := r.1 }
    if r.2 then (st2, .error .rateLimit)
    else (st2, .ok (buildConstraints o))

/-- Rendering of the spec's path grammar `segment(/segment)*` with
non-empty segments: a string is generated by that grammar exactly when
every piece of its slash-split is non-empty (this also forces the string
to be non-empty and to not start or end with the separator). -/
def specPathShape (path : String) : Bool :=
  (pathSegments path).all (fun s => !s.isEmpty)

mutual

/-- Values whose round trip through the converter is expected to be the
identity: booleans, numbers, strings, native dates, and lists and
mappings of such values. Excludes `null`/`undefined` (dropped by
`toFirestore`), raw timestamps (returned as dates), functions and
symbols. -/
def preservedVal : JSValue → Bool
  | .vBool _ => true
  | .vNum _ => true
  | .vStr _ => true
  | .vDate _ => true
  | .vArr xs => preservedList xs
  | .vObj fs => preservedObj fs
  | .vNull => false
  | .vUndefined => false
  | .vTimestamp _ _ => false
  | .vFunc _ => false
  | .vSym _ => false

def preservedList : List JSValue → Bool
  | [] => true
  | x :: xs => preservedVal x && preservedList xs

def preservedObj : List (String × JSValue) → Bool
  | [] => true
  | (_, v) :: fs => preservedVal v && preservedObj fs

end

/-- `n` consecutive `logDocumentRequest` calls for the path `p`, all at
time 0, starting from an empty log. Returns the final map and whether
any of the calls threw. -/
def runDocRequests : Nat → ((String → List Int) × Bool)
  | 0 => (fun _ => [], false)
  | n + 1 =>
    let r := runDocRequests n
    let r2 := logDocumentRequest r.1 "p" 0
    (r2.1, r.2 || r2.2)

/-- A limiter state whose document-read window for the path `bad` holds
exactly `maxDocumentRequestsPerMinute` fresh entries. -/
def stDocAtCeiling : LimiterState :=
  ⟨[], fun p => if p = "bad" then List.replicate maxDocumentRequestsPerMinute 0 else [],
   fun _ => [], fun _ => []⟩

theorem lookupField_append_last (fs : List (String × JSValue)) (k : String)
    (v : JSValue) (h : fs.any (fun p => p.1 == k) = false) :
    lookupField (fs ++ [(k, v)]) k = some v := by
  induction fs with
  | nil => rw [List.nil_append, lookupField, if_pos (by simp)]
  | cons p fs ih =>
    obtain ⟨p1, p2⟩ := p
    simp only [List.any_cons, Bool.or_eq_false_iff] at h
    rw [List.cons_append, lookupField, if_neg (by simp [h.1])]
    exact ih h.2

theorem lookupField_map_set (fs : List (String × JSValue)) (k : String)
    (v : JSValue) (h : fs.any (fun p => p.1 == k) = true) :
    lookupField (fs.map (fun p => if p.1 == k then (k, v) else p)) k = some v := by
  induction fs with
  | nil => simp at h
  | cons p fs ih =>
    obtain ⟨p1, p2⟩ := p
    rw [List.any_cons, Bool.or_eq_true] at h
    by_cases hp : (p1 == k) = true
    · rw [List.map_cons]
      simp only [hp, if_true]
      rw [lookupField, if_pos (by simp)]
    · rw [List.map_cons, if_neg hp, lookupField, if_neg hp]
      exact ih (h.resolve_left hp)

theorem lookupField_setField (fs : List (String × JSValue)) (k : String)
    (v : JSValue) : lookupField (setField fs k v) k = some v := by
  unfold setField
  by_cases h : fs.any (fun p => p.1 == k) = true
  · rw [if_pos h]
    exact lookupField_map_set fs k v h
  · rw [if_neg h]
    exact lookupField_append_last fs k v (by rwa [Bool.not_eq_true] at h)

/-- C8: `fromFirestore` always annotates the produced document with the
snapshot's store-assigned document ID: looking up the `id` field of the
conversion result yields exactly that ID, for every stored value. -/
theorem claim_C8_id_field (data : JSValue) (docId : String) :
    objLookup (fromFirestore data docId) "id" = some (.vStr docId) := by
  unfold fromFirestore
  cases transformTimestamps data <;> simp only [objLookup] <;>
    exact lookupField_setField _ _ _

/-- C7: a path that is empty or starts or ends with the separator fails
both validators with the generic shape error (`emptyPath` or
`leadingOrTrailingSlash`), never with a parity error, and both validators
agree on that error: the basic shape checks run first. -/
theorem claim_C7_shape_before_parity (p : String)
    (h : p = "" ∨ jsStartsWith p "/" = true ∨ jsEndsWith p "/" = true) :
    (validateCollectionPathSegments p = .error .emptyPath ∨
      validateCollectionPathSegments p = .error .leadingOrTrailingSlash) ∧
    validateDocumentPathSegments p = validateCollectionPathSegments p := by
  by_cases h0 : p = ""
  · simp [validateCollectionPathSegments, validateDocumentPathSegments,
      validatePathBasic, h0]
  · have hs : (jsStartsWith p "/" || jsEndsWith p "/") = true := by
      rcases h with h | h | h
      · exact absurd h h0
      · simp [h]
      · simp [h]
    simp [validateCollectionPathSegments, validateDocumentPathSegments,
      validatePathBasic, h0, hs]

theorem claim_C7_witness :
    (validateCollectionPathSegments "/users" = .error .emptyPath ∨
      validateCollectionPathSegments "/users" = .error .leadingOrTrailingSlash) ∧
    validateDocumentPathSegments "/users" = validateCollectionPathSegments "/users" :=
  claim_C7_shape_before_parity "/users" (Or.inr (Or.inl (by decide)))

/-- C6: every mutating operation validates its path before recording any
rate-limit request, so a malformed path surfaces the path error with the
limiter state untouched: `updateDocument`, `setDocument` and
`deleteDocument` on a path failing document validation, and
`addDocument` on a path failing collection validation, all return the
input state unchanged together with the validation error. -/
theorem claim_C6_validation_before_rate (st : LimiterState) (now : Int)
    (p : String) :
    (∀ e : PathError, validateDocumentPathSegments p = .error e →
      updateDocument st now p = (st, .error (.path e)) ∧
      setDocument st now p = (st, .error (.path e)) ∧
      deleteDocument st now p = (st, .error (.path e))) ∧
    (∀ e : PathError, validateCollectionPathSegments p = .error e →
      addDocument st now p = (st, .error (.path e))) := by
  constructor
  · intro e he
    refine ⟨?_, ?_, ?_⟩ <;>
      simp [updateDocument, setDocument, deleteDocument, he]
  · intro e he
    simp [addDocument, he]

theorem claim_C6_witness :
    updateDocument initialLimiterState 0 "/bad" =
      (initialLimiterState, .error (.path .leadingOrTrailingSlash)) ∧
    addDocument initialLimiterState 0 "/bad" =
      (initialLimiterState, .error (.path .leadingOrTrailingSlash)) :=
  ⟨((claim_C6_validation_before_rate initialLimiterState 0 "/bad").1
      .leadingOrTrailingSlash rfl).1,
   (claim_C6_validation_before_rate initialLimiterState 0 "/bad").2
      .leadingOrTrailingSlash rfl⟩

theorem splitOnChar_ne_nil (sep : Char) (cs : List Char) :
    splitOnChar sep cs ≠ [] := by
  cases cs with
  | nil => simp [splitOnChar]
  | cons c cs =>
    rw [splitOnChar]
    cases splitOnChar sep cs with
    | nil => simp
    | cons h t =>
      by_cases hc : c = sep <;> simp [hc]

theorem splitOnChar_cons_sep (sep : Char) (cs : List Char) :
    splitOnChar sep (sep :: cs) = [] :: splitOnChar sep cs := by
  rw [splitOnChar]
  cases hr : splitOnChar sep cs with
  | nil => exact absurd hr (splitOnChar_ne_nil sep cs)
  | cons h t => simp

theorem splitOnChar_append_sep (sep : Char) (cs : List Char) :
    splitOnChar sep (cs ++ [sep]) = splitOnChar sep cs ++ [[]] := by
  induction cs with
  | nil =>
    rw [List.nil_append, splitOnChar_cons_sep]
    simp [splitOnChar]
  | cons c cs ih =>
    rw [List.cons_append]
    by_cases hc : c = sep
    · subst hc
      rw [splitOnChar_cons_sep, splitOnChar_cons_sep, ih, List.cons_append]
    · cases hr : splitOnChar sep cs with
      | nil => exact absurd hr (splitOnChar_ne_nil sep cs)
      | cons h t =>
        have hl : splitOnChar sep (cs ++ [sep]) = h :: (t ++ [[]]) := by
          rw [ih, hr, List.cons_append]
        rw [splitOnChar, hl, splitOnChar, hr]
        simp [hc]

theorem specPathShape_empty : specPathShape "" = false := rfl

theorem specPathShape_false_of_starts (p : String)
    (h : jsStartsWith p "/" = true) : specPathShape p = false := by
  unfold jsStartsWith at h
  unfold specPathShape pathSegments
  cases hd : p.data with
  | nil => rw [hd] at h; simp [List.isPrefixOf] at h
  | cons c cs =>
    rw [hd] at h
    simp [List.isPrefixOf] at h
    rw [← h, splitOnChar_cons_sep]
    simp

theorem specPathShape_false_of_ends (p : String)
    (h : jsEndsWith p "/" = true) : specPathShape p = false := by
  unfold jsEndsWith at h
  unfold List.isSuffixOf at h
  cases hd : p.data.reverse with
  | nil => rw [hd] at h; simp [List.isPrefixOf] at h
  | cons c cs =>
    rw [hd] at h
    simp [List.isPrefixOf] at h
    have hp : p.data = cs.reverse ++ ['/'] := by
      have h2 := congrArg List.reverse hd
      rw [List.reverse_reverse] at h2
      rw [h2, List.reverse_cons, ← h]
    unfold specPathShape pathSegments
    rw [hp, splitOnChar_append_sep]
    simp

/-- C3 counterexample: `a//b` contains an empty segment, so it does not
match the grammar `segment(/segment)*` with non-empty segments, yet the
collection validator accepts it; likewise `a//b/c` for the document
validator. -/
theorem claim_C3_counterexample :
    validateCollectionPathSegments "a//b" = .ok () ∧
    specPathShape "a//b" = false ∧
    validateDocumentPathSegments "a//b/c" = .ok () ∧
    specPathShape "a//b/c" = false :=
  ⟨rfl, rfl, rfl, rfl⟩

/-- C3 amended: the validators check only the basic shape (non-empty, no
leading or trailing separator) and the slash-split segment-count parity
(odd for collections; even and at least two for documents) — they do not
check segments for emptiness. Hence every string matching
`segment(/segment)*` with the required parity is accepted (the claim's
accept direction holds), but the reject direction fails: strings with
empty interior segments and the right parity are accepted too. -/
theorem claim_C3_validator_characterization (p : String) :
    (validateCollectionPathSegments p = .ok () ↔
      (p ≠ "" ∧ jsStartsWith p "/" = false ∧ jsEndsWith p "/" = false ∧
        (pathSegments p).length % 2 = 1)) ∧
    (validateDocumentPathSegments p = .ok () ↔
      (p ≠ "" ∧ jsStartsWith p "/" = false ∧ jsEndsWith p "/" = false ∧
        (pathSegments p).length % 2 = 0 ∧ 2 ≤ (pathSegments p).length)) ∧
    (specPathShape p = true → (pathSegments p).length % 2 = 1 →
      validateCollectionPathSegments p = .ok ()) ∧
    (specPathShape p = true → (pathSegments p).length % 2 = 0 →
      validateDocumentPathSegments p = .ok ()) := by
  have hshape : specPathShape p = true →
      p ≠ "" ∧ jsStartsWith p "/" = false ∧ jsEndsWith p "/" = false := by
    intro hs
    refine ⟨?_, ?_, ?_⟩
    · intro h0
      rw [h0, specPathShape_empty] at hs
      exact Bool.false_ne_true hs
    · cases h1 : jsStartsWith p "/" with
      | false => rfl
      | true => rw [specPathShape_false_of_starts p h1] at hs
                exact absurd hs Bool.false_ne_true
    · cases h1 : jsEndsWith p "/" with
      | false => rfl
      | true => rw [specPathShape_false_of_ends p h1] at hs
                exact absurd hs Bool.false_ne_true
  have hlen : (pathSegments p).length ≠ 0 := by
    intro h0
    exact splitOnChar_ne_nil '/' p.data (List.eq_nil_of_length_eq_zero h0)
  have hcol : validateCollectionPathSegments p = .ok () ↔
      (p ≠ "" ∧ jsStartsWith p "/" = false ∧ jsEndsWith p "/" = false ∧
        (pathSegments p).length % 2 = 1) := by
    unfold validateCollectionPathSegments validatePathBasic
    by_cases h0 : p = ""
    · simp [h0]
    · by_cases h1 : jsStartsWith p "/" = true <;>
        by_cases h2 : jsEndsWith p "/" = true <;>
          by_cases h3 : (pathSegments p).length % 2 = 1 <;>
            simp [h0, h1, h2, h3]
  have hdoc : validateDocumentPathSegments p = .ok () ↔
      (p ≠ "" ∧ jsStartsWith p "/" = false ∧ jsEndsWith p "/" = false ∧
        (pathSegments p).length % 2 = 0 ∧ 2 ≤ (pathSegments p).length) := by
    unfold validateDocumentPathSegments validatePathBasic
    by_cases h0 : p = ""
    · simp [h0]
    · by_cases h1 : jsStartsWith p "/" = true <;>
        by_cases h2 : jsEndsWith p "/" = true <;>
          by_cases h3 : (pathSegments p).length % 2 = 0 <;>
            by_cases h4 : (pathSegments p).length < 2 <;>
              simp [h0, h1, h2, h3, h4] <;>
                first
                | omega
                | (split <;> simp)
  refine ⟨hcol, hdoc, ?_, ?_⟩
  · intro hs hpar
    obtain ⟨h0, h1, h2⟩ := hshape hs
    exact hcol.mpr ⟨h0, h1, h2, hpar⟩
  · intro hs hpar
    obtain ⟨h0, h1, h2⟩ := hshape hs
    exact hdoc.mpr ⟨h0, h1, h2, hpar, by omega⟩

theorem claim_C3_witness :
    validateCollectionPathSegments "users" = .ok () ∧
    validateDocumentPathSegments "users/u1" = .ok () :=
  ⟨(claim_C3_validator_characterization "users").2.2.1 (by decide) (by decide),
   (claim_C3_validator_characterization "users/u1").2.2.2 (by decide)
     (by decide)⟩

/-- C5 counterexample: a query whose options carry a `startAfter` cursor
but no `orderBy` clause is not rejected — `queryCollection` succeeds and
forwards the cursor constraint to the SDK (the code has no
invalid-query rejection at all, as the error type shows). -/
theorem claim_C5_counterexample :
    (queryCollection initialLimiterState 0 "users"
        ⟨none, none, .vUndefined, .vStr "cursor", .vUndefined⟩).2 =
      .ok [.startAfterC (.vStr "cursor")] := rfl

/-- C5 amended: `queryCollection` performs no cursor/ordering
validation: whenever the path is valid and the general window is below
its ceiling, a query with a truthy `startAfter` and no `orderBy` clause
succeeds, and the constraint list handed to the SDK contains the cursor
constraint — an unordered paginated scan is executed, not rejected. -/
theorem claim_C5_cursor_without_order (st : LimiterState) (now : Int)
    (p : String) (o : QueryOptions)
    (hpath : validateCollectionPathSegments p = .ok ())
    (hrate : (logGeneralRequest st.requestTimestamps now).2 = false)
    (hord : o.orderByClauses = none)
    (hcur : truthy o.startAfterValue = true) :
    (queryCollection st now p o).2 = .ok (buildConstraints o) ∧
    QueryConstraint.startAfterC o.startAfterValue ∈ buildConstraints o := by
  constructor
  · unfold queryCollection
    rw [hpath]
    simp [hrate]
  · simp [buildConstraints, orderByConstraints, hord, hcur]

theorem claim_C5_witness :
    (queryCollection initialLimiterState 0 "users"
        ⟨none, none, .vUndefined, .vNum 7, .vUndefined⟩).2 =
      .ok (buildConstraints ⟨none, none, .vUndefined, .vNum 7, .vUndefined⟩) ∧
    QueryConstraint.startAfterC (.vNum 7) ∈
      buildConstraints ⟨none, none, .vUndefined, .vNum 7, .vUndefined⟩ :=
  claim_C5_cursor_without_order initialLimiterState 0 "users"
    ⟨none, none, .vUndefined, .vNum 7, .vUndefined⟩ rfl rfl rfl rfl

/-- C10: falsy option values are treated as absent — a `limit` of `0`
contributes no limit constraint, and `startAfter`/`endBefore` values of
`0`, the empty string, `false` or `null` contribute no cursor
constraint, so the query runs with exactly the where and order-by
constraints: unpaginated and unlimited. -/
theorem claim_C10_falsy_options_absent (st : LimiterState) (now : Int)
    (p : String) (o : QueryOptions)
    (hl : o.lim = .vNum 0)
    (hs : o.startAfterValue = .vNum 0 ∨ o.startAfterValue = .vStr "" ∨
      o.startAfterValue = .vBool false ∨ o.startAfterValue = .vNull)
    (he : o.endBeforeValue = .vNum 0 ∨ o.endBeforeValue = .vStr "" ∨
      o.endBeforeValue = .vBool false ∨ o.endBeforeValue = .vNull) :
    buildConstraints o = whereConstraints o ++ orderByConstraints o ∧
    (validateCollectionPathSegments p = .ok () →
      (logGeneralRequest st.requestTimestamps now).2 = false →
      (queryCollection st now p o).2 =
        .ok (whereConstraints o ++ orderByConstraints o)) := by
  have hts : truthy o.startAfterValue = false := by
    rcases hs with h | h | h | h <;> simp [h, truthy]
  have hte : truthy o.endBeforeValue = false := by
    rcases he with h | h | h | h <;> simp [h, truthy]
  have htl : truthy o.lim = false := by simp [hl, truthy]
  have hb : buildConstraints o = whereConstraints o ++ orderByConstraints o := by
    simp [buildConstraints, hts, hte, htl]
  refine ⟨hb, ?_⟩
  intro hpath hrate
  unfold queryCollection
  rw [hpath]
  simp [hrate, hb]

theorem claim_C10_witness :
    buildConstraints
        ⟨some [⟨"age", .ge, .vNum 21⟩], none, .vNum 0, .vNull, .vStr ""⟩ =
      whereConstraints
          ⟨some [⟨"age", .ge, .vNum 21⟩], none, .vNum 0, .vNull, .vStr ""⟩ ++
        orderByConstraints
          ⟨some [⟨"age", .ge, .vNum 21⟩], none, .vNum 0, .vNull, .vStr ""⟩ ∧
    (queryCollection initialLimiterState 0 "users"
        ⟨some [⟨"age", .ge, .vNum 21⟩], none, .vNum 0, .vNull, .vStr ""⟩).2 =
      .ok (whereConstraints
          ⟨some [⟨"age", .ge, .vNum 21⟩], none, .vNum 0, .vNull, .vStr ""⟩ ++
        orderByConstraints
          ⟨some [⟨"age", .ge, .vNum 21⟩], none, .vNum 0, .vNull, .vStr ""⟩) :=
  ⟨(claim_C10_falsy_options_absent initialLimiterState 0 "users"
      ⟨some [⟨"age", .ge, .vNum 21⟩], none, .vNum 0, .vNull, .vStr ""⟩ rfl
      (Or.inr (Or.inr (Or.inr rfl))) (Or.inr (Or.inl rfl))).1,
   (claim_C10_falsy_options_absent initialLimiterState 0 "users"
      ⟨some [⟨"age", .ge, .vNum 21⟩], none, .vNum 0, .vNull, .vStr ""⟩ rfl
      (Or.inr (Or.inr (Or.inr rfl))) (Or.inr (Or.inl rfl))).2 rfl rfl⟩

/-- C1, evaluated at the failing input: thirty document-read records for
the path `p` at time 0 all succeed, and the next record at time 61000 —
61 seconds later, when the whole window has expired — throws the
rate-limit error even though the pruned window it stores holds only the
new entry. `logSpecificRequest` checks the ceiling against the unpruned
pushed array (31 entries), not against the pruned window (1 entry), so
recording N requests at T and N more at T+61s does trigger the ceiling
for the per-path classes, contradicting the sliding-window contract that
`logGeneralRequest` implements and the pruning comment documents. -/
theorem claim_C1_failing_input_eval :
    (runDocRequests 30).2 = false ∧
    (logDocumentRequest (runDocRequests 30).1 "p" 61000).2 = true ∧
    (logDocumentRequest (runDocRequests 30).1 "p" 61000).1 "p" =
      [(61000 : Int)] :=
  ⟨rfl, rfl, rfl⟩

/-- C9: `getDocument` records the document-read request for the raw path
string before validating it. The path's sliding window is appended and
pruned whether or not the path is well-formed; when the pushed window
exceeds the ceiling the call fails with the rate-limit error even on a
malformed path; only below the ceiling does a malformed path surface its
path error. -/
theorem claim_C9_rate_before_validation (st : LimiterState) (now : Int)
    (p : String) :
    ((getDocument st now p).1.documentRequestLog p =
      (st.documentRequestLog p ++ [now]).filter (fun t => now - t < 60000)) ∧
    ((st.documentRequestLog p ++ [now]).length > maxDocumentRequestsPerMinute →
      (getDocument st now p).2 = .error .rateLimit) ∧
    (∀ e : PathError,
      (st.documentRequestLog p ++ [now]).length ≤ maxDocumentRequestsPerMinute →
      validateDocumentPathSegments p = .error e →
      (getDocument st now p).2 = .error (.path e)) := by
  refine ⟨?_, ?_, ?_⟩
  · unfold getDocument logDocumentRequest logSpecificRequest
    by_cases hb : maxDocumentRequestsPerMinute <
        (st.documentRequestLog p).length + 1
    · simp [hb]
    · cases hv : validateDocumentPathSegments p <;> simp [hb, hv]
  · intro h
    rw [List.length_append, List.length_singleton] at h
    unfold getDocument logDocumentRequest logSpecificRequest
    simp [h]
  · intro e hle he
    rw [List.length_append, List.length_singleton] at hle
    have hno : ¬(maxDocumentRequestsPerMinute <
        (st.documentRequestLog p).length + 1) := by omega
    unfold getDocument logDocumentRequest logSpecificRequest
    simp [hno, he]

theorem claim_C9_witness :
    (getDocument stDocAtCeiling 61000 "bad").2 = .error .rateLimit ∧
    (getDocument initialLimiterState 0 "bad").2 =
      .error (.path .documentParity) :=
  ⟨(claim_C9_rate_before_validation stDocAtCeiling 61000 "bad").2.1
      (by decide),
   (claim_C9_rate_before_validation initialLimiterState 0 "bad").2.2
      .documentParity (by decide) rfl⟩

/-- C4 counterexample: `toStorage` drops a `null` mapping entry — the
claim says null values are retained — and keeps a function-valued entry
unchanged — the claim says functions are removed. -/
theorem claim_C4_counterexample :
    toFirestore (.vObj [("a", .vNull), ("f", .vFunc 0)]) =
      .vObj [("f", .vFunc 0)] ∧
    objLookup (toFirestore (.vObj [("a", .vNull), ("f", .vFunc 0)])) "a" =
      none ∧
    objLookup (toFirestore (.vObj [("a", .vNull), ("f", .vFunc 0)])) "f" =
      some (.vFunc 0) :=
  ⟨rfl, rfl, rfl⟩

/-- C4 amended: the transform underlying `toStorage` removes exactly
those entries (mapping keys or list elements) whose value serializes to
absent, and a value serializes to absent exactly when it is `null` or
`undefined`; every other entry is retained in order with its value
transformed — in particular functions and symbols are not removed but
passed through unchanged. -/
theorem claim_C4_absent_exactly_null_undefined :
    (∀ v : JSValue, transformDates v = none ↔
      (v = .vNull ∨ v = .vUndefined)) ∧
    (∀ fs : List (String × JSValue),
      transformDatesObj fs =
        fs.filterMap (fun kv => (transformDates kv.2).map (fun w => (kv.1, w)))) ∧
    (∀ xs : List JSValue,
      transformDatesList xs = xs.filterMap (fun x => transformDates x)) ∧
    (∀ i : Nat, transformDates (.vFunc i) = some (.vFunc i) ∧
      transformDates (.vSym i) = some (.vSym i)) := by
  refine ⟨?_, ?_, ?_, ?_⟩
  · intro v
    cases v <;> simp [transformDates]
  · intro fs
    induction fs with
    | nil => simp [transformDatesObj]
    | cons kv fs ih =>
      obtain ⟨k, v⟩ := kv
      cases hv : transformDates v <;>
        simp [transformDatesObj, hv, ih, List.filterMap_cons]
  · intro xs
    induction xs with
    | nil => simp [transformDatesList]
    | cons x xs ih =>
      cases hx : transformDates x <;>
        simp [transformDatesList, hx, ih, List.filterMap_cons]
  · intro i
    exact ⟨rfl, rfl⟩

theorem claim_C4_witness :
    transformDates .vNull = none ∧
    transformDatesObj [("a", .vNull), ("b", .vNum 1)] =
      List.filterMap (fun kv => (transformDates kv.2).map (fun w => (kv.1, w)))
        [("a", .vNull), ("b", .vNum 1)] :=
  ⟨(claim_C4_absent_exactly_null_undefined.1 .vNull).mpr (Or.inl rfl),
   claim_C4_absent_exactly_null_undefined.2.1 [("a", .vNull), ("b", .vNum 1)]⟩

theorem claim_C8_witness :
    objLookup (fromFirestore (.vObj [("x", .vNum 5), ("id", .vNum 9)]) "doc7")
      "id" = some (.vStr "doc7") :=
  claim_C8_id_field (.vObj [("x", .vNum 5), ("id", .vNum 9)]) "doc7"

theorem date_roundtrip (ms : Int) :
    transformTimestamps (timestampFromDate ms) = .vDate ms := by
  unfold timestampFromDate
  rw [transformTimestamps]
  unfold timestampToDate
  congr 1
  show ms / 1000 * 1000 + (ms - ms / 1000 * 1000) * 1000000 / 1000000 = ms
  rw [Int.mul_ediv_cancel _ (by norm_num)]
  ring

mutual

theorem rt_val : ∀ (v : JSValue), preservedVal v = true →
    (transformDates v).map transformTimestamps = some v
  | .vBool _, _ => rfl
  | .vNum _, _ => rfl
  | .vStr _, _ => rfl
  | .vDate ms, _ => by
    show some (transformTimestamps (timestampFromDate ms)) =
      some (.vDate ms)
    rw [date_roundtrip]
  | .vArr xs, h => by
    show some (transformTimestamps (.vArr (transformDatesList xs))) =
      some (.vArr xs)
    rw [transformTimestamps, rt_list xs h]
  | .vObj fs, h => by
    show some (transformTimestamps (.vObj (transformDatesObj fs))) =
      some (.vObj fs)
    rw [transformTimestamps, rt_obj fs h]
  | .vNull, h => by simp [preservedVal] at h
  | .vUndefined, h => by simp [preservedVal] at h
  | .vTimestamp _ _, h => by simp [preservedVal] at h
  | .vFunc _, h => by simp [preservedVal] at h
  | .vSym _, h => by simp [preservedVal] at h

theorem rt_list : ∀ (xs : List JSValue), preservedList xs = true →
    transformTimestampsList (transformDatesList xs) = xs
  | [], _ => rfl
  | x :: xs, h => by
    rw [preservedList, Bool.and_eq_true] at h
    have hv := rt_val x h.1
    cases hw : transformDates x with
    | none => rw [hw] at hv; simp at hv
    | some w =>
      rw [hw] at hv
      have hwv : transformTimestamps w = x := by simpa using hv
      simp only [transformDatesList, hw, transformTimestampsList, hwv,
        rt_list xs h.2]

theorem rt_obj : ∀ (fs : List (String × JSValue)), preservedObj fs = true →
    transformTimestampsObj (transformDatesObj fs) = fs
  | [], _ => rfl
  | (k, v) :: fs, h => by
    rw [preservedObj, Bool.and_eq_true] at h
    have hv := rt_val v h.1
    cases hw : transformDates v with
    | none => rw [hw] at hv; simp at hv
    | some w =>
      rw [hw] at hv
      have hwv : transformTimestamps w = v := by simpa using hv
      simp only [transformDatesObj, hw, transformTimestampsObj, hwv,
        rt_obj fs h.2]

end

/-- C2 counterexample: a document holding a `null` field and a raw
timestamp field — both "supported value types" under the claim — does
not round-trip: the `null` field is dropped by `toStorage` and the
timestamp field is returned by `fromStorage` as a native date, so the
result differs from the input in present (non-absent) fields. -/
theorem claim_C2_counterexample :
    fromFirestore
        (toFirestore (.vObj [("a", .vNull), ("t", .vTimestamp 1 0)])) "d1" =
      .vObj [("t", .vDate 1000), ("id", .vStr "d1")] :=
  rfl

/-- C2 amended: for documents all of whose values are built from
booleans, numbers, strings, native dates, lists and nested mappings (no
`null`, no raw timestamp, no function/symbol/undefined), the round trip
`fromStorage` after `toStorage` returns the document unchanged except
that the `id` field is set to the snapshot's document ID; in particular
a native date survives exactly, to the millisecond stored. -/
theorem claim_C2_roundtrip (fs : List (String × JSValue))
    (h : preservedObj fs = true) (docId : String) :
    fromFirestore (toFirestore (.vObj fs)) docId =
      .vObj (setField fs "id" (.vStr docId)) := by
  have h1 : toFirestore (.vObj fs) = .vObj (transformDatesObj fs) := rfl
  have h2 : transformTimestamps (.vObj (transformDatesObj fs)) = .vObj fs := by
    rw [transformTimestamps, rt_obj fs h]
  rw [h1]
  unfold fromFirestore
  rw [h2]

theorem claim_C2_witness :
    preservedObj [("title", .vStr "x"), ("when", .vDate 1234),
        ("tags", .vArr [.vNum 1, .vBool true]),
        ("meta", .vObj [("n", .vNum 2)])] = true ∧
    fromFirestore
        (toFirestore (.vObj [("title", .vStr "x"), ("when", .vDate 1234),
          ("tags", .vArr [.vNum 1, .vBool true]),
          ("meta", .vObj [("n", .vNum 2)])])) "d2" =
      .vObj (setField [("title", .vStr "x"), ("when", .vDate 1234),
        ("tags", .vArr [.vNum 1, .vBool true]),
        ("meta", .vObj [("n", .vNum 2)])] "id" (.vStr "d2")) :=
  ⟨rfl,
   claim_C2_roundtrip [("title", .vStr "x"), ("when", .vDate 1234),
     ("tags", .vArr [.vNum 1, .vBool true]),
     ("meta", .vObj [("n", .vNum 2)])] rfl "d2"⟩

end FirestoreSpec
